import Mathlib

/-!
Verification of the ENARI FPS matchmaking server core
(queue/lobby coordination, anti-cheat packet validation, worker mesh).

The definitions below are a shallow embedding of the TypeScript sources:
`server/src/validation.ts`, `server/src/ping.ts`, the matchmaking/lobby
Durable Objects in `server/src/index.ts`, and `server/src/workers-mesh.ts`.
JavaScript numbers are modelled as `Int` where the code only ever adds,
subtracts and compares integers (timestamps, sequence numbers, ping
samples), and as `ℚ` where real division occurs (ping averaging, worker
scoring).  Mutable per-player / per-worker state is passed explicitly;
`Date.now()` becomes an explicit `now : Int` argument.
-/

namespace FPSShooter

open List

/-- Violation severity, from `validation.ts` (`'warning' | 'violation' | 'ban'`). -/
inductive Severity where
  | warning
  | violation
  | ban
deriving DecidableEq, Repr

/-- A logged violation (`ValidationViolation` in `validation.ts`).
`vtype` is the `type` field of the source record. -/
structure ValidationViolation where
  vtype : String
  severity : Severity
  timestamp : Int
  details : String
deriving DecidableEq, Repr

/-- A validation result (`ValidationResult` in `types.ts`):
`valid`, optional `reason`, optional `severity`. -/
structure ValidationResult where
  valid : Bool
  reason : Option String := none
  severity : Option Severity := none
deriving DecidableEq, Repr

/-- The part of `PlayerValidationState` read and written by the sequence
check and the escalation logic: `lastSequence` and the violation log.
The remaining fields (`lastPosition`, `lastShootTime`, `lastTimestamp`,
`positionHistory`, `warningCount`) are not consulted by the properties
verified here. -/
structure PlayerValidationState where
  lastSequence : Int
  violations : List ValidationViolation
deriving DecidableEq, Repr

/-- Five minutes in milliseconds, the violation-log window. -/
def FIVE_MINUTES_MS : Int := 5 * 60 * 1000

/-- Maximum allowed sequence gap (`MAX_SEQUENCE_GAP` in `validation.ts`). -/
def MAX_SEQUENCE_GAP : Int := 10

/-- `recordViolation` from `validation.ts`: append the violation, prune the
log to the trailing five minutes, count severities in the window, and decide
ban / violation / violation / warning.  Returns the updated state together
with the `ValidationResult`. -/
def recordViolation (now : Int) (state : PlayerValidationState)
    (violation : ValidationViolation) : PlayerValidationState × ValidationResult :=
  let fiveMinutesAgo := now - FIVE_MINUTES_MS
  let violations :=
    (state.violations ++ [violation]).filter (fun v => fiveMinutesAgo < v.timestamp)
  let violationCount := (violations.filter (fun v => v.severity = .violation)).length
  let warningCount := (violations.filter (fun v => v.severity = .warning)).length
  let state' := { state with violations := violations }
  if violationCount ≥ 5 then
    (state', { valid := false, reason := some violation.details, severity := some .ban })
  else if violationCount ≥ 3 then
    (state', { valid := false, reason := some violation.details, severity := some .violation })
  else if warningCount ≥ 10 then
    (state', { valid := false, reason := some violation.details, severity := some .violation })
  else
    (state', { valid := true, reason := some violation.details, severity := some .warning })

/-- The per-player summary returned by `getViolationSummary`. -/
structure ViolationSummary where
  warnings : Nat
  violations : Nat
  shouldBan : Bool
deriving DecidableEq, Repr

/-- `getViolationSummary` from `validation.ts`.  `state?` is
`playerStates.get(playerId)`: `none` when the player has no state. -/
def getViolationSummary (now : Int) (state? : Option PlayerValidationState) :
    ViolationSummary :=
  match state? with
  | none => { warnings := 0, violations := 0, shouldBan := false }
  | some state =>
    let fiveMinutesAgo := now - FIVE_MINUTES_MS
    let recentViolations := state.violations.filter (fun v => fiveMinutesAgo < v.timestamp)
    let warnings := (recentViolations.filter (fun v => v.severity = .warning)).length
    let violations := (recentViolations.filter (fun v => v.severity = .violation)).length
    { warnings, violations,
      shouldBan := violations ≥ 5 ∨ (violations ≥ 3 ∧ warnings ≥ 5) }

/-- `validateSequence` from `validation.ts`, as a function of the packet's
sequence number.  First packet (`lastSequence = -1`) seeds the counter;
a gap above `MAX_SEQUENCE_GAP` logs a warning-severity violation through
`recordViolation` (leaving `lastSequence` unchanged); a negative gap is a
hard reject; otherwise the packet is accepted and `lastSequence` advances. -/
def validateSequence (now : Int) (state : PlayerValidationState)
    (sequence : Int) : PlayerValidationState × ValidationResult :=
  if state.lastSequence = -1 then
    ({ state with lastSequence := sequence }, { valid := true })
  else
    let expectedSequence := state.lastSequence + 1
    let gap := sequence - expectedSequence
    if gap > MAX_SEQUENCE_GAP then
      recordViolation now state
        { vtype := "sequence_gap", severity := .warning, timestamp := now,
          details := "Sequence gap" }
    else if gap < 0 then
      (state, { valid := false, reason := some "Duplicate or out-of-order packet" })
    else
      ({ state with lastSequence := sequence }, { valid := true })

/-! ### Ping measurement (`ping.ts`) -/

/-- `PING_SAMPLE_COUNT` from `ping.ts`. -/
def PING_SAMPLE_COUNT : Nat := 5

/-- `MAX_PING_DIFFERENCE` from `ping.ts`. -/
def MAX_PING_DIFFERENCE : Int := 100

/-- JavaScript `Math.round`: round half toward positive infinity. -/
def jsRound (x : ℚ) : Int := ⌊x + 1 / 2⌋

/-- `recordPingSample` from `ping.ts`: push the sample, then drop the
oldest one (`shift`) if more than `PING_SAMPLE_COUNT` are kept. -/
def recordPingSample (history : List Int) (ping : Int) : List Int :=
  let history' := history ++ [ping]
  if history'.length > PING_SAMPLE_COUNT then history'.tail else history'

/-- `getAveragePing` from `ping.ts`: `-1` with no samples, otherwise the
rounded mean of the stored samples. -/
def getAveragePing (history : List Int) : Int :=
  if history.length = 0 then -1
  else
    let sum : Int := history.sum
    jsRound ((sum : ℚ) / (history.length : ℚ))

/-- `arePingsCompatible` from `ping.ts`: unknown ping (negative) matches
anything; otherwise the absolute difference must be within tolerance. -/
def arePingsCompatible (ping1 ping2 : Int) : Bool :=
  if ping1 < 0 ∨ ping2 < 0 then true
  else |ping1 - ping2| ≤ MAX_PING_DIFFERENCE

/-- Number of log entries with the given severity (the
`violations.filter(v => v.severity === s).length` idiom from
`validation.ts`). -/
def severityCount (s : Severity) (log : List ValidationViolation) : Nat :=
  (log.filter (fun v => v.severity = s)).length

/-- The violation log pruned to the trailing five-minute window. -/
def recentLog (now : Int) (log : List ValidationViolation) : List ValidationViolation :=
  log.filter (fun v => now - FIVE_MINUTES_MS < v.timestamp)

/-! ### Matchmaking pool and lobby formation
(`ping.ts` grouping/selection, `index.ts` `MatchmakingDO`) -/

/-- The fields of `PlayerInfo` consulted by lobby formation: identity and
rolling average ping.  `joinedAt`, `region` and `lastHeartbeat` play no
role in the grouping/selection algorithms. -/
structure PlayerInfo where
  id : String
  ping : Int
deriving DecidableEq, Repr

/-- `LOBBY_SIZE` from `index.ts`. -/
def LOBBY_SIZE : Nat := 4

/-- The loop body of `groupPlayersByPing`: `base` is `currentGroup[0]`
(which never changes inside a group), `cur` the current group so far.
A compatible player is pushed onto the current group; an incompatible one
closes the group and starts a new one; the last group is always emitted. -/
def groupGo (base : PlayerInfo) (cur : List PlayerInfo) :
    List PlayerInfo → List (List PlayerInfo)
  | [] => [cur]
  | p :: rest =>
    if arePingsCompatible base.ping p.ping then
      groupGo base (cur ++ [p]) rest
    else
      cur :: groupGo p [p] rest

/-- `groupPlayersByPing` from `ping.ts`: stable-sort by ping ascending
(JavaScript `sort` with comparator `a.ping - b.ping` is stable, as is
`insertionSort`), then band players whose ping is compatible with the
band's first member. -/
def groupPlayersByPing (players : List PlayerInfo) : List (List PlayerInfo) :=
  match players.insertionSort (fun a b => a.ping ≤ b.ping) with
  | [] => []
  | h :: t => groupGo h [h] t

/-- The fallback merge loop of `selectPlayersForLobby`: walk groups in
order, stop once `lobbySize` players are selected (`needed <= 0` break),
and from each group take players compatible with the first selected
player (or the whole group when nothing is selected yet). -/
def mergeGroups (lobbySize : Nat) :
    List (List PlayerInfo) → List PlayerInfo → List PlayerInfo
  | [], selected => selected
  | group :: rest, selected =>
    if lobbySize ≤ selected.length then selected
    else
      let needed := lobbySize - selected.length
      let compatible :=
        match selected.head? with
        | none => group
        | some s => group.filter (fun p => arePingsCompatible s.ping p.ping)
      mergeGroups lobbySize rest (selected ++ compatible.take needed)

/-- `selectPlayersForLobby` from `ping.ts`: return the whole pool when it
does not exceed the lobby size; otherwise the first ping band of at least
`lobbySize` players (truncated), or failing that the greedy merge of
compatible players across bands. -/
def selectPlayersForLobby (players : List PlayerInfo) (lobbySize : Nat) :
    List PlayerInfo :=
  if players.length ≤ lobbySize then players
  else
    let groups := groupPlayersByPing players
    match groups.find? (fun g => lobbySize ≤ g.length) with
    | some g => g.take lobbySize
    | none => mergeGroups lobbySize groups []

/-- The fields of `LobbyInfo` determined by `createLobby` that matter to
the membership invariants: the member id list and the host. -/
structure LobbyInfo where
  players : List String
  hostId : String
  maxPlayers : Nat
deriving DecidableEq, Repr

/-- `createLobby` from `index.ts`: build the lobby record from the
selected players (host is the first) and delete each selected player's id
from the waiting pool.  Returns the lobby and the updated pool. -/
def createLobby (players : List PlayerInfo) (pool : List PlayerInfo) :
    LobbyInfo × List PlayerInfo :=
  let hostId := match players with
    | [] => ""
    | p :: _ => p.id
  let lobby : LobbyInfo :=
    { players := players.map (fun p => p.id), hostId, maxPlayers := LOBBY_SIZE }
  (lobby, pool.filter (fun q => players.all (fun p => p.id ≠ q.id)))

/-- `tryCreateLobbies` from `index.ts`: do nothing with fewer than
`LOBBY_SIZE` waiting players; otherwise select players by ping similarity
and, when at least `LOBBY_SIZE` were selected, create one lobby from the
first `LOBBY_SIZE` of them.  Returns `none` when no lobby is formed. -/
def tryCreateLobbies (pool : List PlayerInfo) : Option (LobbyInfo × List PlayerInfo) :=
  if pool.length < LOBBY_SIZE then none
  else
    let selectedPlayers := selectPlayersForLobby pool LOBBY_SIZE
    if LOBBY_SIZE ≤ selectedPlayers.length then
      some (createLobby (selectedPlayers.take LOBBY_SIZE) pool)
    else none

/-! ### Lobby packet relay (`index.ts` `LobbyDO`) -/

/-- Observable outcome of `handleGamePacket` on one inbound packet:
whether the sender was kicked, whether their connection was closed, and
the ids the packet was forwarded to. -/
structure PacketOutcome where
  kickedSender : Bool
  closedSender : Bool
  forwardedTo : List String
deriving DecidableEq, Repr

/-- `broadcastToOthers` from `index.ts`: every connected member except the
sender. -/
def broadcastToOthers (senderId : String) (connections : List String) :
    List String :=
  connections.filter (fun playerId => playerId ≠ senderId)

/-- `handleGamePacket` from `index.ts`, as a function of the validation
result: a ban result kicks and closes the sender and forwards nothing;
any other result (including non-ban violations, which are merely logged)
falls through to `broadcastToOthers`. -/
def handleGamePacket (senderId : String) (validationResult : ValidationResult)
    (connections : List String) : PacketOutcome :=
  if !validationResult.valid then
    if validationResult.severity = some .ban then
      { kickedSender := true, closedSender := true, forwardedTo := [] }
    else
      { kickedSender := false, closedSender := false,
        forwardedTo := broadcastToOthers senderId connections }
  else
    { kickedSender := false, closedSender := false,
      forwardedTo := broadcastToOthers senderId connections }

/-! ### Worker mesh (`workers-mesh.ts`) -/

/-- `WORKER_TIMEOUT` from `workers-mesh.ts` (90 s in milliseconds). -/
def WORKER_TIMEOUT : Int := 90000

/-- `WorkerLoad` from `types.ts` (JavaScript numbers modelled as `ℚ`). -/
structure WorkerLoad where
  activePlayers : ℚ
  activeLobbies : ℚ
  cpuUsage : ℚ
  memoryUsage : ℚ
deriving DecidableEq, Repr

/-- The fields of `WorkerInfo` consulted by scoring and stale cleanup. -/
structure WorkerInfo where
  id : String
  region : String
  lastSeen : Int
  load : WorkerLoad
deriving DecidableEq, Repr

/-- The per-worker score computed inside `handleGetBestWorker`:
base 100, +50 on region match, minus `(activePlayers / 1000) * 30`,
minus `cpuUsage * 0.2`. -/
def scoreWorker (playerRegion : String) (worker : WorkerInfo) : ℚ :=
  let base : ℚ := 100
  let regionBonus : ℚ := if worker.region = playerRegion then 50 else 0
  let loadPenalty : ℚ := (worker.load.activePlayers / 1000) * 30
  base + regionBonus - loadPenalty - worker.load.cpuUsage * (2 / 10)

/-- `cleanupStaleWorkers` from `workers-mesh.ts`: delete every record,
other than the local node's own, unseen for more than `WORKER_TIMEOUT`. -/
def cleanupStaleWorkers (now : Int) (localWorkerId : String)
    (workers : List WorkerInfo) : List WorkerInfo :=
  workers.filter (fun w => ¬(now - w.lastSeen > WORKER_TIMEOUT ∧ w.id ≠ localWorkerId))

/-- `handleGetWorkers` from `workers-mesh.ts`: run stale cleanup, then
return the records seen within the timeout window.  The first component
is the registry after cleanup, the second the returned list. -/
def handleGetWorkers (now : Int) (localWorkerId : String)
    (workers : List WorkerInfo) : List WorkerInfo × List WorkerInfo :=
  let registry := cleanupStaleWorkers now localWorkerId workers
  (registry, registry.filter (fun w => now - w.lastSeen < WORKER_TIMEOUT))

/-- A concrete validation state exhibiting the divergence between the two
ban predicates: two violation-severity and five warning-severity entries,
all current. -/
def diffState : PlayerValidationState :=
  ⟨-1, [⟨"teleport", .violation, 0, "d"⟩, ⟨"speed_hack", .violation, 0, "d"⟩,
        ⟨"invalid_direction", .warning, 0, "d"⟩, ⟨"invalid_direction", .warning, 0, "d"⟩,
        ⟨"invalid_direction", .warning, 0, "d"⟩, ⟨"invalid_direction", .warning, 0, "d"⟩,
        ⟨"invalid_direction", .warning, 0, "d"⟩]⟩

/-- The third violation-severity event recorded against `diffState`. -/
def diffViolation : ValidationViolation := ⟨"teleport", .violation, 0, "d"⟩

/-- A concrete four-player pool with distinct ids used to witness the
lobby-capacity invariant. -/
def witnessPool : List PlayerInfo :=
  [⟨"w1", 10⟩, ⟨"w2", 20⟩, ⟨"w3", 30⟩, ⟨"w4", 40⟩]

/-- The lobby formed from `witnessPool`. -/
def witnessLobby : LobbyInfo :=
  { players := ["w1", "w2", "w3", "w4"], hostId := "w1", maxPlayers := 4 }

/-! ## Theorems -/

/-- Unfolding lemma: the violation log produced by `recordViolation` is the
appended-then-pruned log. -/
theorem recordViolation_fst_violations (now : Int) (state : PlayerValidationState)
    (v : ValidationViolation) :
    (recordViolation now state v).1.violations = recentLog now (state.violations ++ [v]) := by
  simp only [recordViolation, recentLog]
  split_ifs <;> rfl

/-- C1: `recordViolation` appends the new violation, prunes the log to the
trailing 5 minutes, and then: ≥5 violation-severity entries ⇒ severity `ban`
with `valid=false`; else ≥3 ⇒ severity `violation` with `valid=false`; else
≥10 warning-severity entries ⇒ severity `violation` with `valid=false`;
otherwise severity `warning` with `valid=true`. -/
theorem recordViolation_escalation (now : Int) (state : PlayerValidationState)
    (v : ValidationViolation) :
    (recordViolation now state v).1.violations = recentLog now (state.violations ++ [v]) ∧
    (5 ≤ severityCount .violation (recentLog now (state.violations ++ [v])) →
      (recordViolation now state v).2.severity = some .ban ∧
      (recordViolation now state v).2.valid = false) ∧
    (severityCount .violation (recentLog now (state.violations ++ [v])) < 5 →
      3 ≤ severityCount .violation (recentLog now (state.violations ++ [v])) →
      (recordViolation now state v).2.severity = some .violation ∧
      (recordViolation now state v).2.valid = false) ∧
    (severityCount .violation (recentLog now (state.violations ++ [v])) < 3 →
      10 ≤ severityCount .warning (recentLog now (state.violations ++ [v])) →
      (recordViolation now state v).2.severity = some .violation ∧
      (recordViolation now state v).2.valid = false) ∧
    (severityCount .violation (recentLog now (state.violations ++ [v])) < 3 →
      severityCount .warning (recentLog now (state.violations ++ [v])) < 10 →
      (recordViolation now state v).2.severity = some .warning ∧
      (recordViolation now state v).2.valid = true) := by
  refine ⟨recordViolation_fst_violations now state v, ?_, ?_, ?_, ?_⟩ <;>
    · simp only [recordViolation, severityCount, recentLog]
      split_ifs with h1 h2 h3 <;> simp_all <;> omega

/-- Witness for C1 at a concrete input: five recent violation-severity
entries yield a ban result with `valid=false`. -/
theorem recordViolation_escalation_witness :
    5 ≤ severityCount .violation (recentLog 0
        (([⟨"t", .violation, 0, "d"⟩, ⟨"t", .violation, 0, "d"⟩, ⟨"t", .violation, 0, "d"⟩,
           ⟨"t", .violation, 0, "d"⟩] : List ValidationViolation) ++
          [⟨"t", .violation, 0, "d"⟩])) ∧
    (recordViolation 0
        ⟨-1, [⟨"t", .violation, 0, "d"⟩, ⟨"t", .violation, 0, "d"⟩, ⟨"t", .violation, 0, "d"⟩,
              ⟨"t", .violation, 0, "d"⟩]⟩
        ⟨"t", .violation, 0, "d"⟩).2.severity = some .ban ∧
    (recordViolation 0
        ⟨-1, [⟨"t", .violation, 0, "d"⟩, ⟨"t", .violation, 0, "d"⟩, ⟨"t", .violation, 0, "d"⟩,
              ⟨"t", .violation, 0, "d"⟩]⟩
        ⟨"t", .violation, 0, "d"⟩).2.valid = false := by
  refine ⟨by decide, ?_⟩
  exact (recordViolation_escalation 0
    ⟨-1, [⟨"t", .violation, 0, "d"⟩, ⟨"t", .violation, 0, "d"⟩, ⟨"t", .violation, 0, "d"⟩,
          ⟨"t", .violation, 0, "d"⟩]⟩
    ⟨"t", .violation, 0, "d"⟩).2.1 (by decide)

/-- C10: `getViolationSummary` returns zero counts and `shouldBan=false`
for a player with no state; otherwise it counts warning- and
violation-severity entries in the trailing 5-minute window and sets
`shouldBan` exactly when violations ≥ 5 or (violations ≥ 3 and
warnings ≥ 5).  The final conjunct exhibits the divergence from
`recordViolation`'s per-packet decision: a log reaching 3 violations and
5 warnings makes `shouldBan` true while the packet result is a non-ban
`violation`. -/
theorem getViolationSummary_spec (now : Int) (state : PlayerValidationState) :
    getViolationSummary now none = ⟨0, 0, false⟩ ∧
    (getViolationSummary now (some state)).warnings =
      severityCount .warning (recentLog now state.violations) ∧
    (getViolationSummary now (some state)).violations =
      severityCount .violation (recentLog now state.violations) ∧
    ((getViolationSummary now (some state)).shouldBan = true ↔
      (5 ≤ severityCount .violation (recentLog now state.violations) ∨
        (3 ≤ severityCount .violation (recentLog now state.violations) ∧
          5 ≤ severityCount .warning (recentLog now state.violations)))) ∧
    ((getViolationSummary 0 (some (recordViolation 0 diffState diffViolation).1)).shouldBan
        = true ∧
      (recordViolation 0 diffState diffViolation).2.severity = some .violation ∧
      (recordViolation 0 diffState diffViolation).2.severity ≠ some .ban) := by
  refine ⟨rfl, ?_, ?_, ?_, by decide⟩ <;>
    simp [getViolationSummary, severityCount, recentLog]

/-- C2 counterexample: a non-ban `violation` result does **not** suppress
forwarding — `handleGamePacket` falls through to `broadcastToOthers`, so
the packet reaches the two other connected members. -/
theorem handleGamePacket_violation_forwards :
    (handleGamePacket "a" ⟨false, none, some .violation⟩ ["a", "b", "c"]).forwardedTo
      = ["b", "c"] ∧
    (["b", "c"] : List String) ≠ [] ∧
    (handleGamePacket "a" ⟨false, none, some .violation⟩ ["a", "b", "c"]).closedSender
      = false := by
  decide

/-- C2 amended: a ban result kicks the sender, closes their connection and
forwards nothing; every other result — including a non-ban `violation`,
which is only logged — forwards the packet verbatim to every connected
member other than the sender, and the sender stays connected. -/
theorem handleGamePacket_spec (senderId : String) (res : ValidationResult)
    (connections : List String) :
    (res.valid = false → res.severity = some .ban →
      handleGamePacket senderId res connections =
        ⟨true, true, []⟩) ∧
    (res.valid = false → res.severity ≠ some .ban →
      handleGamePacket senderId res connections =
        ⟨false, false, broadcastToOthers senderId connections⟩) ∧
    (res.valid = true →
      handleGamePacket senderId res connections =
        ⟨false, false, broadcastToOthers senderId connections⟩) ∧
    (∀ p, p ∈ broadcastToOthers senderId connections ↔ p ∈ connections ∧ p ≠ senderId) := by
  refine ⟨?_, ?_, ?_, ?_⟩
  · intro hv hb; simp [handleGamePacket, hv, hb]
  · intro hv hb; simp [handleGamePacket, hv, hb]
  · intro hv; simp [handleGamePacket, hv]
  · intro p; simp [broadcastToOthers]

/-- Witness for the amended C2 at a concrete input. -/
theorem handleGamePacket_spec_witness :
    ((⟨false, none, some .violation⟩ : ValidationResult).valid = false ∧
      (⟨false, none, some .violation⟩ : ValidationResult).severity ≠ some .ban) ∧
    handleGamePacket "a" ⟨false, none, some .violation⟩ ["a", "b", "c"] =
      ⟨false, false, broadcastToOthers "a" ["a", "b", "c"]⟩ := by
  refine ⟨⟨rfl, by decide⟩, ?_⟩
  exact (handleGamePacket_spec "a" ⟨false, none, some .violation⟩ ["a", "b", "c"]).2.1
    rfl (by decide)

/-- C9: a result with `valid=false` and no severity — exactly what the
sequence check returns for a negative gap (duplicate / out-of-order
packet) — is still forwarded verbatim to every connected member other
than the sender, and the sender stays connected. -/
theorem handleGamePacket_invalid_no_severity (senderId : String)
    (res : ValidationResult) (connections : List String)
    (now : Int) (state : PlayerValidationState) (sequence : Int)
    (hv : res.valid = false) (hs : res.severity = none) :
    handleGamePacket senderId res connections =
      ⟨false, false, broadcastToOthers senderId connections⟩ ∧
    (∀ p, p ∈ broadcastToOthers senderId connections ↔ p ∈ connections ∧ p ≠ senderId) ∧
    (state.lastSequence ≠ -1 → sequence - (state.lastSequence + 1) < 0 →
      (validateSequence now state sequence).2 =
        ⟨false, some "Duplicate or out-of-order packet", none⟩) := by
  refine ⟨?_, ?_, ?_⟩
  · simp [handleGamePacket, hv, hs]
  · intro p; simp [broadcastToOthers]
  · intro h1 h2
    unfold validateSequence
    rw [if_neg h1, if_neg (by unfold MAX_SEQUENCE_GAP; omega), if_pos h2]

/-- Witness for C9 at a concrete input: a duplicate packet (gap −2) is
hard-rejected with no severity, and the lobby still forwards it to the
other two members. -/
theorem handleGamePacket_invalid_no_severity_witness :
    ((⟨false, some "Duplicate or out-of-order packet", none⟩ : ValidationResult).valid
        = false ∧
      (⟨false, some "Duplicate or out-of-order packet", none⟩ : ValidationResult).severity
        = none ∧
      (5 : Int) - ((6 : Int) + 1) < 0 ∧ ((6 : Int) ≠ -1)) ∧
    handleGamePacket "a" ⟨false, some "Duplicate or out-of-order packet", none⟩
        ["a", "b", "c"] =
      ⟨false, false, broadcastToOthers "a" ["a", "b", "c"]⟩ ∧
    (validateSequence 0 ⟨6, []⟩ 5).2 =
      ⟨false, some "Duplicate or out-of-order packet", none⟩ := by
  refine ⟨⟨rfl, rfl, by decide, by decide⟩, ?_, ?_⟩
  · exact (handleGamePacket_invalid_no_severity "a"
      ⟨false, some "Duplicate or out-of-order packet", none⟩ ["a", "b", "c"]
      0 ⟨6, []⟩ 5 rfl rfl).1
  · exact (handleGamePacket_invalid_no_severity "a"
      ⟨false, some "Duplicate or out-of-order packet", none⟩ ["a", "b", "c"]
      0 ⟨6, []⟩ 5 rfl rfl).2.2 (by decide) (by decide)

/-- C3 counterexample: with `lastSequence = 0`, a packet with sequence 15
(gap 14 > 10) produces a `valid=true` (accepted) result, yet
`lastSequence` stays 0 instead of advancing to 15; and a packet with
sequence 5 (gap 4, within 0..10) is accepted with **no** warning logged. -/
theorem validateSequence_claim_fails :
    ((validateSequence 0 ⟨0, []⟩ 15).2.valid = true ∧
      (validateSequence 0 ⟨0, []⟩ 15).1.lastSequence = 0 ∧
      (0 : Int) ≠ 15) ∧
    ((validateSequence 0 ⟨0, []⟩ 5).2 = { valid := true } ∧
      (validateSequence 0 ⟨0, []⟩ 5).1.violations = [] ∧
      (validateSequence 0 ⟨0, []⟩ 5).2.severity = none) := by
  decide

/-- C3 amended: the first packet seeds the counter; a negative gap is
hard-rejected with `valid=false` and nothing logged; a gap in 0..10 is
accepted silently (no violation logged, even for positive gaps) and
`lastSequence` advances; a gap above 10 routes through `recordViolation`
with a warning-severity `sequence_gap` violation, the packet result comes
from the escalation policy, and `lastSequence` is **not** advanced. -/
theorem validateSequence_spec (now : Int) (state : PlayerValidationState)
    (sequence : Int) :
    (state.lastSequence = -1 →
      validateSequence now state sequence =
        ({ state with lastSequence := sequence }, { valid := true })) ∧
    (state.lastSequence ≠ -1 → sequence - (state.lastSequence + 1) < 0 →
      validateSequence now state sequence =
        (state, { valid := false, reason := some "Duplicate or out-of-order packet" })) ∧
    (state.lastSequence ≠ -1 → 0 ≤ sequence - (state.lastSequence + 1) →
      sequence - (state.lastSequence + 1) ≤ 10 →
      validateSequence now state sequence =
        ({ state with lastSequence := sequence }, { valid := true })) ∧
    (state.lastSequence ≠ -1 → 10 < sequence - (state.lastSequence + 1) →
      validateSequence now state sequence =
        recordViolation now state
          ⟨"sequence_gap", .warning, now, "Sequence gap"⟩ ∧
      (validateSequence now state sequence).1.lastSequence = state.lastSequence) := by
  refine ⟨?_, ?_, ?_, ?_⟩
  · intro h1; simp [validateSequence, h1]
  · intro h1 h2
    unfold validateSequence
    rw [if_neg h1, if_neg (by unfold MAX_SEQUENCE_GAP; omega), if_pos h2]
  · intro h1 h2 h3
    unfold validateSequence
    rw [if_neg h1, if_neg (by unfold MAX_SEQUENCE_GAP; omega),
      if_neg (by omega)]
  · intro h1 h2
    have heq : validateSequence now state sequence =
        recordViolation now state ⟨"sequence_gap", .warning, now, "Sequence gap"⟩ := by
      unfold validateSequence
      rw [if_neg h1, if_pos (by unfold MAX_SEQUENCE_GAP; omega)]
    refine ⟨heq, ?_⟩
    rw [heq]
    simp only [recordViolation]
    split_ifs <;> rfl

/-- Witness for the amended C3 at concrete inputs: gap 4 is accepted
silently and advances the counter; gap 14 is routed through escalation
and leaves the counter at 0. -/
theorem validateSequence_spec_witness :
    (((6 : Int) ≠ -1) ∧ (0 : Int) ≤ 10 - (6 + 1) ∧ (10 : Int) - (6 + 1) ≤ 10 ∧
      (10 : Int) < 18 - (6 + 1)) ∧
    validateSequence 0 ⟨6, []⟩ 10 = (⟨10, []⟩, { valid := true }) ∧
    (validateSequence 0 ⟨6, []⟩ 18 =
        recordViolation 0 ⟨6, []⟩ ⟨"sequence_gap", .warning, 0, "Sequence gap"⟩ ∧
      (validateSequence 0 ⟨6, []⟩ 18).1.lastSequence = 6) := by
  refine ⟨⟨by decide, by decide, by decide, by decide⟩, ?_, ?_⟩
  · exact (validateSequence_spec 0 ⟨6, []⟩ 10).2.2.1 (by decide) (by decide) (by decide)
  · exact (validateSequence_spec 0 ⟨6, []⟩ 18).2.2.2 (by decide) (by decide)

/-- C4 counterexample: with exactly the four waiting players of latency
10, 40, 90 and 200 (tolerance 100), a lobby **is** formed and it contains
the 200-latency player — `selectPlayersForLobby` returns the whole pool
whenever the pool does not exceed the lobby size, before any grouping. -/
theorem tryCreateLobbies_includes_isolated_player :
    tryCreateLobbies [⟨"p1", 10⟩, ⟨"p2", 40⟩, ⟨"p3", 90⟩, ⟨"p4", 200⟩] =
      some ({ players := ["p1", "p2", "p3", "p4"], hostId := "p1", maxPlayers := 4 }, []) ∧
    "p4" ∈ (["p1", "p2", "p3", "p4"] : List String) := by
  decide

/-- C4 amended: `groupPlayersByPing` does band 10/40/90 together and
isolate 200, but with only those four players `tryCreateLobbies` still
forms a lobby containing the 200-latency player (the pool is returned
whole when its size does not exceed the lobby size).  With a fifth player
at latency 95, the band 10/40/90/95 reaches capacity and exactly those
four form the lobby, leaving the 200-latency player waiting. -/
theorem lobbyFormation_latency_example :
    groupPlayersByPing [⟨"p1", 10⟩, ⟨"p2", 40⟩, ⟨"p3", 90⟩, ⟨"p4", 200⟩] =
      [[⟨"p1", 10⟩, ⟨"p2", 40⟩, ⟨"p3", 90⟩], [⟨"p4", 200⟩]] ∧
    tryCreateLobbies [⟨"p1", 10⟩, ⟨"p2", 40⟩, ⟨"p3", 90⟩, ⟨"p4", 200⟩] =
      some ({ players := ["p1", "p2", "p3", "p4"], hostId := "p1", maxPlayers := 4 }, []) ∧
    selectPlayersForLobby [⟨"p1", 10⟩, ⟨"p2", 40⟩, ⟨"p3", 90⟩, ⟨"p4", 200⟩, ⟨"p5", 95⟩] 4 =
      [⟨"p1", 10⟩, ⟨"p2", 40⟩, ⟨"p3", 90⟩, ⟨"p5", 95⟩] ∧
    tryCreateLobbies [⟨"p1", 10⟩, ⟨"p2", 40⟩, ⟨"p3", 90⟩, ⟨"p4", 200⟩, ⟨"p5", 95⟩] =
      some ({ players := ["p1", "p2", "p3", "p5"], hostId := "p1", maxPlayers := 4 },
        [⟨"p4", 200⟩]) := by
  refine ⟨by decide, by decide, by decide, by decide⟩

/-- C6: with identical load, a region-matching worker scores exactly 50
points higher than a non-matching one; with identical region status and
CPU, a worker with 1000 more active players scores exactly 30 lower. -/
theorem scoreWorker_region_and_load (playerRegion : String) (w w' : WorkerInfo) :
    (w.load = w'.load → w.region = playerRegion → w'.region ≠ playerRegion →
      scoreWorker playerRegion w = scoreWorker playerRegion w' + 50) ∧
    (w.region = w'.region →
      w'.load.activePlayers = w.load.activePlayers + 1000 →
      w'.load.cpuUsage = w.load.cpuUsage →
      scoreWorker playerRegion w' = scoreWorker playerRegion w - 30) := by
  constructor
  · intro hl hr hr'
    simp only [scoreWorker, hl, if_pos hr, if_neg hr']
    ring
  · intro hr ha hc
    simp only [scoreWorker, hr, ha, hc]
    split_ifs <;> ring

/-- Witness for C6 at concrete workers. -/
theorem scoreWorker_region_and_load_witness :
    ((⟨"w1", "us-east", 0, ⟨500, 2, 40, 50⟩⟩ : WorkerInfo).load =
        (⟨"w2", "eu-west", 0, ⟨500, 2, 40, 50⟩⟩ : WorkerInfo).load ∧
      (⟨"w1", "us-east", 0, ⟨500, 2, 40, 50⟩⟩ : WorkerInfo).region = "us-east" ∧
      (⟨"w2", "eu-west", 0, ⟨500, 2, 40, 50⟩⟩ : WorkerInfo).region ≠ "us-east") ∧
    scoreWorker "us-east" ⟨"w1", "us-east", 0, ⟨500, 2, 40, 50⟩⟩ =
      scoreWorker "us-east" ⟨"w2", "eu-west", 0, ⟨500, 2, 40, 50⟩⟩ + 50 ∧
    scoreWorker "us-east" ⟨"w3", "us-east", 0, ⟨1500, 2, 40, 50⟩⟩ =
      scoreWorker "us-east" ⟨"w1", "us-east", 0, ⟨500, 2, 40, 50⟩⟩ - 30 := by
  refine ⟨⟨rfl, rfl, by decide⟩, ?_, ?_⟩
  · exact (scoreWorker_region_and_load "us-east"
      ⟨"w1", "us-east", 0, ⟨500, 2, 40, 50⟩⟩
      ⟨"w2", "eu-west", 0, ⟨500, 2, 40, 50⟩⟩).1 rfl rfl (by decide)
  · exact (scoreWorker_region_and_load "us-east"
      ⟨"w1", "us-east", 0, ⟨500, 2, 40, 50⟩⟩
      ⟨"w3", "us-east", 0, ⟨1500, 2, 40, 50⟩⟩).2 rfl (by norm_num) rfl

/-- C7: a worker record other than the local node's own whose `lastSeen`
is more than 90 s in the past is evicted from the registry by the cleanup
run inside `handleGetWorkers` and is absent from the returned list; the
local node's own record survives stale cleanup unconditionally. -/
theorem staleWorker_evicted (now : Int) (localWorkerId : String)
    (workers : List WorkerInfo) (w : WorkerInfo) :
    (w ∈ workers → w.id ≠ localWorkerId → WORKER_TIMEOUT < now - w.lastSeen →
      w ∉ (handleGetWorkers now localWorkerId workers).1 ∧
      w ∉ (handleGetWorkers now localWorkerId workers).2) ∧
    (w ∈ workers → w.id = localWorkerId →
      w ∈ cleanupStaleWorkers now localWorkerId workers) := by
  constructor
  · intro hmem hid hstale
    have hreg : w ∉ (handleGetWorkers now localWorkerId workers).1 := by
      simp only [handleGetWorkers, cleanupStaleWorkers, List.mem_filter]
      intro hc
      rcases hc with ⟨-, hkeep⟩
      simp only [decide_eq_true_eq, not_and, not_not] at hkeep
      exact hid (hkeep hstale)
    refine ⟨hreg, ?_⟩
    intro hlist
    exact hreg (List.mem_of_mem_filter hlist)
  · intro hmem hid
    simp only [cleanupStaleWorkers, List.mem_filter]
    refine ⟨hmem, ?_⟩
    simp [hid]

/-- Witness for C7 at a concrete registry: a worker unseen for 90.001 s is
gone from both the registry and the list, while the stale local record
survives cleanup. -/
theorem staleWorker_evicted_witness :
    ((⟨"other", "eu-west", 0, ⟨0, 0, 0, 0⟩⟩ : WorkerInfo) ∈
        ([⟨"local", "us-east", 0, ⟨0, 0, 0, 0⟩⟩, ⟨"other", "eu-west", 0, ⟨0, 0, 0, 0⟩⟩] :
          List WorkerInfo) ∧
      ("other" : String) ≠ "local" ∧ WORKER_TIMEOUT < (90001 : Int) - 0) ∧
    ((⟨"other", "eu-west", 0, ⟨0, 0, 0, 0⟩⟩ : WorkerInfo) ∉
      (handleGetWorkers 90001 "local"
        [⟨"local", "us-east", 0, ⟨0, 0, 0, 0⟩⟩, ⟨"other", "eu-west", 0, ⟨0, 0, 0, 0⟩⟩]).1 ∧
    (⟨"other", "eu-west", 0, ⟨0, 0, 0, 0⟩⟩ : WorkerInfo) ∉
      (handleGetWorkers 90001 "local"
        [⟨"local", "us-east", 0, ⟨0, 0, 0, 0⟩⟩, ⟨"other", "eu-west", 0, ⟨0, 0, 0, 0⟩⟩]).2) ∧
    (⟨"local", "us-east", 0, ⟨0, 0, 0, 0⟩⟩ : WorkerInfo) ∈
      cleanupStaleWorkers 90001 "local"
        [⟨"local", "us-east", 0, ⟨0, 0, 0, 0⟩⟩, ⟨"other", "eu-west", 0, ⟨0, 0, 0, 0⟩⟩] := by
  refine ⟨⟨by decide, by decide, by decide⟩, ?_, ?_⟩
  · exact (staleWorker_evicted 90001 "local"
      [⟨"local", "us-east", 0, ⟨0, 0, 0, 0⟩⟩, ⟨"other", "eu-west", 0, ⟨0, 0, 0, 0⟩⟩]
      ⟨"other", "eu-west", 0, ⟨0, 0, 0, 0⟩⟩).1 (by decide) (by decide) (by decide)
  · exact (staleWorker_evicted 90001 "local"
      [⟨"local", "us-east", 0, ⟨0, 0, 0, 0⟩⟩, ⟨"other", "eu-west", 0, ⟨0, 0, 0, 0⟩⟩]
      ⟨"local", "us-east", 0, ⟨0, 0, 0, 0⟩⟩).2 (by decide) rfl

/-- The ping history is a bounded FIFO: folding `recordPingSample` over
any sample sequence, starting from a history of at most
`PING_SAMPLE_COUNT` entries, keeps exactly the trailing
`PING_SAMPLE_COUNT` entries of the combined sequence. -/
theorem foldl_recordPingSample (ps : List Int) :
    ∀ h : List Int, h.length ≤ PING_SAMPLE_COUNT →
      List.foldl recordPingSample h ps =
        (h ++ ps).drop ((h ++ ps).length - PING_SAMPLE_COUNT) := by
  induction ps with
  | nil =>
    intro h hh
    simp [Nat.sub_eq_zero_of_le hh]
  | cons p ps ih =>
    intro h hh
    rw [List.foldl_cons]
    rcases Nat.lt_or_ge h.length PING_SAMPLE_COUNT with hlt | hge
    · have hrec : recordPingSample h p = h ++ [p] := by
        simp only [recordPingSample, List.length_append, List.length_singleton]
        rw [if_neg (by omega)]
      rw [hrec, ih (h ++ [p]) (by simp; omega)]
      simp [List.append_assoc]
    · have h5 : h.length = PING_SAMPLE_COUNT := le_antisymm hh hge
      cases h with
      | nil => simp [PING_SAMPLE_COUNT] at h5
      | cons a t =>
        have ht : t.length = 4 := by
          simp only [List.length_cons, PING_SAMPLE_COUNT] at h5
          omega
        have hrec : recordPingSample (a :: t) p = t ++ [p] := by
          simp only [recordPingSample, List.cons_append, List.length_cons,
            List.length_append, List.length_singleton]
          rw [if_pos (by simp [PING_SAMPLE_COUNT]; omega)]
          rfl
        rw [hrec, ih (t ++ [p]) (by simp [ht, PING_SAMPLE_COUNT])]
        have hlen1 : ((t ++ [p]) ++ ps).length - PING_SAMPLE_COUNT = ps.length := by
          simp [ht, PING_SAMPLE_COUNT]
          omega
        have hlen2 : ((a :: t) ++ p :: ps).length - PING_SAMPLE_COUNT = ps.length + 1 := by
          simp [ht, PING_SAMPLE_COUNT]
        rw [hlen1, hlen2, List.cons_append, List.drop_succ_cons]
        congr 1
        simp

/-- C8: after recording any sequence of ping samples, the stored history
is exactly the trailing (at most) 5 samples; `getAveragePing` is the
sentinel −1 before any sample, and otherwise the JavaScript-rounded mean
of those trailing samples. -/
theorem getAveragePing_spec (ps : List Int) :
    List.foldl recordPingSample [] ps =
      ps.drop (ps.length - PING_SAMPLE_COUNT) ∧
    (ps = [] → getAveragePing (List.foldl recordPingSample [] ps) = -1) ∧
    (ps ≠ [] →
      getAveragePing (List.foldl recordPingSample [] ps) =
        jsRound ((((ps.drop (ps.length - PING_SAMPLE_COUNT)).sum : Int) : ℚ) /
          ((ps.drop (ps.length - PING_SAMPLE_COUNT)).length : ℚ))) := by
  have hstate : List.foldl recordPingSample [] ps =
      ps.drop (ps.length - PING_SAMPLE_COUNT) := by
    simpa using foldl_recordPingSample ps [] (by simp)
  refine ⟨hstate, ?_, ?_⟩
  · rintro rfl; rfl
  · intro hne
    rw [hstate]
    have hpos : 0 < ps.length := List.length_pos.mpr hne
    have hlen : (ps.drop (ps.length - PING_SAMPLE_COUNT)).length ≠ 0 := by
      rw [List.length_drop]
      have h5 : PING_SAMPLE_COUNT = 5 := rfl
      omega
    simp only [getAveragePing, if_neg hlen]

/-- Witness for C8 at a concrete input: after samples 10, 20, 40 the
average is the rounded mean of all three samples. -/
theorem getAveragePing_spec_witness :
    (([10, 20, 40] : List Int) ≠ []) ∧
    getAveragePing (List.foldl recordPingSample [] [10, 20, 40]) =
      jsRound ((((([10, 20, 40] : List Int).drop (3 - PING_SAMPLE_COUNT)).sum : Int) : ℚ) /
        ((([10, 20, 40] : List Int).drop (3 - PING_SAMPLE_COUNT)).length : ℚ)) := by
  exact ⟨by decide, (getAveragePing_spec [10, 20, 40]).2.2 (by decide)⟩

/-- The groups produced by the banding loop concatenate back to the
current group followed by the unprocessed players. -/
theorem groupGo_flatten (rest : List PlayerInfo) :
    ∀ (base : PlayerInfo) (cur : List PlayerInfo),
      (groupGo base cur rest).flatten = cur ++ rest := by
  induction rest with
  | nil => intro base cur; simp [groupGo]
  | cons p rest ih =>
    intro base cur
    simp only [groupGo]
    split_ifs with hc
    · rw [ih]
      simp
    · simp only [List.flatten_cons, ih]
      simp

/-- The ping bands partition the pool: concatenating them back gives a
permutation of the original player list. -/
theorem groupPlayersByPing_flatten_perm (players : List PlayerInfo) :
    (groupPlayersByPing players).flatten ~ players := by
  have hs := List.perm_insertionSort (fun a b : PlayerInfo => a.ping ≤ b.ping) players
  unfold groupPlayersByPing
  cases hsort : players.insertionSort (fun a b => a.ping ≤ b.ping) with
  | nil =>
    rw [hsort] at hs
    simpa using hs
  | cons x t =>
    rw [hsort] at hs
    rw [groupGo_flatten]
    simpa using hs

/-- The greedy cross-band merge only ever selects players drawn from the
already-selected list and the remaining bands. -/
theorem mergeGroups_subperm (lobbySize : Nat) (gs : List (List PlayerInfo)) :
    ∀ selected : List PlayerInfo,
      mergeGroups lobbySize gs selected <+~ selected ++ gs.flatten := by
  induction gs with
  | nil =>
    intro selected
    simpa [mergeGroups] using List.Subperm.refl selected
  | cons g gs ih =>
    intro selected
    simp only [mergeGroups]
    split_ifs with hfull
    · exact (List.sublist_append_left selected _).subperm
    · refine (ih _).trans ?_
      have hsub : ((match selected.head? with
          | none => g
          | some s => g.filter (fun p => arePingsCompatible s.ping p.ping)).take
            (lobbySize - selected.length)) <+ g := by
        cases selected.head? with
        | none => exact List.take_sublist ..
        | some s => exact (List.take_sublist ..).trans (List.filter_sublist ..)
      have : (selected ++ (match selected.head? with
          | none => g
          | some s => g.filter (fun p => arePingsCompatible s.ping p.ping)).take
            (lobbySize - selected.length)) ++ gs.flatten <+
          selected ++ (g :: gs).flatten := by
        rw [List.append_assoc, List.flatten_cons]
        exact (hsub.append_right gs.flatten).append_left selected
      exact this.subperm

/-- Every player selected for a lobby comes from the waiting pool, with
multiplicity (the selection is a permutation of a sublist of the pool). -/
theorem selectPlayersForLobby_subperm (players : List PlayerInfo) (lobbySize : Nat) :
    selectPlayersForLobby players lobbySize <+~ players := by
  simp only [selectPlayersForLobby]
  split_ifs with hle
  · exact List.Subperm.refl players
  · cases hfind : (groupPlayersByPing players).find? (fun g => decide (lobbySize ≤ g.length)) with
    | some g =>
      have hg : g ∈ groupPlayersByPing players := List.mem_of_find?_eq_some hfind
      have h1 : g.take lobbySize <+ (groupPlayersByPing players).flatten :=
        (List.take_sublist ..).trans (List.sublist_flatten_of_mem hg)
      exact h1.subperm.trans (groupPlayersByPing_flatten_perm players).subperm
    | none =>
      have hm := mergeGroups_subperm lobbySize (groupPlayersByPing players) []
      rw [List.nil_append] at hm
      exact hm.trans (groupPlayersByPing_flatten_perm players).subperm

/-- C5: whenever a lobby-formation sweep creates a lobby, the lobby has
exactly `LOBBY_SIZE` (4) members, every member id comes from the waiting
pool, exactly those `LOBBY_SIZE` players (never fewer) are deleted from
the pool, and a waiting player survives the sweep iff their id is not in
the lobby.  (The pool is a map keyed by player id, so ids are distinct.) -/
theorem tryCreateLobbies_capacity (pool : List PlayerInfo) (lobby : LobbyInfo)
    (newPool : List PlayerInfo)
    (hnd : (pool.map PlayerInfo.id).Nodup)
    (h : tryCreateLobbies pool = some (lobby, newPool)) :
    lobby.players.length = LOBBY_SIZE ∧
    (∀ pid ∈ lobby.players, pid ∈ pool.map PlayerInfo.id) ∧
    newPool.length + LOBBY_SIZE = pool.length ∧
    (∀ p ∈ pool, p ∈ newPool ↔ p.id ∉ lobby.players) := by
  simp only [tryCreateLobbies] at h
  split_ifs at h with hlen hsel
  rw [Option.some_inj] at h
  simp only [createLobby] at h
  rw [Prod.mk.injEq] at h
  obtain ⟨hl, hn⟩ := h
  subst hl
  subst hn
  have hsp : (selectPlayersForLobby pool LOBBY_SIZE).take LOBBY_SIZE <+~ pool :=
    (List.take_sublist ..).subperm.trans (selectPlayersForLobby_subperm pool LOBBY_SIZE)
  have hlen4 : ((selectPlayersForLobby pool LOBBY_SIZE).take LOBBY_SIZE).length
      = LOBBY_SIZE := by
    rw [List.length_take]
    omega
  have hmap_sp : ((selectPlayersForLobby pool LOBBY_SIZE).take LOBBY_SIZE).map
      PlayerInfo.id <+~ pool.map PlayerInfo.id := by
    obtain ⟨l, hperm, hsl⟩ := hsp
    exact ⟨l.map PlayerInfo.id, hperm.map PlayerInfo.id, hsl.map PlayerInfo.id⟩
  have hmids_nodup : (((selectPlayersForLobby pool LOBBY_SIZE).take LOBBY_SIZE).map
      PlayerInfo.id).Nodup := by
    obtain ⟨l, hperm, hsl⟩ := hmap_sp
    exact hperm.nodup_iff.mp (hnd.sublist hsl)
  have hsubset := hmap_sp.subset
  refine ⟨by simpa using hlen4, ?_, ?_, ?_⟩
  · intro pid hpid
    obtain ⟨m, hm, rfl⟩ := List.mem_map.mp hpid
    exact List.mem_map.mpr ⟨m, hsp.subset hm, rfl⟩
  · -- exactly LOBBY_SIZE players are deleted from the pool
    have hsplit := (List.filter_append_perm
      (fun q => ((selectPlayersForLobby pool LOBBY_SIZE).take LOBBY_SIZE).all
        (fun p => decide (p.id ≠ q.id))) pool).length_eq
    rw [List.length_append] at hsplit
    have hperm2 : (pool.map PlayerInfo.id).filter
        (fun i => decide (i ∈ ((selectPlayersForLobby pool LOBBY_SIZE).take
          LOBBY_SIZE).map PlayerInfo.id)) ~
        ((selectPlayersForLobby pool LOBBY_SIZE).take LOBBY_SIZE).map PlayerInfo.id := by
      rw [List.perm_ext_iff_of_nodup (hnd.filter _) hmids_nodup]
      intro x
      simp only [List.mem_filter, decide_eq_true_eq]
      exact ⟨fun hx => hx.2, fun hx => ⟨hsubset hx, hx⟩⟩
    have hdrop : (pool.filter (fun a =>
        !(((selectPlayersForLobby pool LOBBY_SIZE).take LOBBY_SIZE).all
          (fun p => decide (p.id ≠ a.id))))).length = LOBBY_SIZE := by
      rw [← List.countP_eq_length_filter]
      rw [List.countP_congr (q := fun a => decide (a.id ∈
        ((selectPlayersForLobby pool LOBBY_SIZE).take LOBBY_SIZE).map PlayerInfo.id))
        (by
          intro q hq
          simp only [Bool.not_eq_true', decide_eq_true_eq, List.all_eq_true,
            decide_eq_false_iff_not, not_forall, List.mem_map, Bool.not_eq_false,
            Bool.not_eq_true, List.all_eq_false]
          constructor
          · rintro ⟨m, hm, he⟩
            simp only [decide_eq_false_iff_not, not_not] at he
            exact ⟨m, hm, he⟩
          · rintro ⟨m, hm, he⟩
            exact ⟨m, hm, by simp [he]⟩)]
      have hcm : List.countP (fun i => decide (i ∈
          ((selectPlayersForLobby pool LOBBY_SIZE).take LOBBY_SIZE).map PlayerInfo.id))
          (pool.map PlayerInfo.id) =
          List.countP (fun a => decide (a.id ∈
            ((selectPlayersForLobby pool LOBBY_SIZE).take LOBBY_SIZE).map PlayerInfo.id))
          pool := List.countP_map ..
      rw [← hcm, List.countP_eq_length_filter, hperm2.length_eq, List.length_map, hlen4]
    rw [hdrop] at hsplit
    omega
  · intro p hp
    simp only [List.mem_filter, hp, true_and, List.all_eq_true, decide_eq_true_eq,
      List.mem_map]
    push_neg
    tauto

/-- Witness for C5 at a concrete pool of four distinct players. -/
theorem tryCreateLobbies_capacity_witness :
    ((witnessPool.map PlayerInfo.id).Nodup ∧
      tryCreateLobbies witnessPool = some (witnessLobby, [])) ∧
    witnessLobby.players.length = LOBBY_SIZE ∧
    (∀ pid ∈ witnessLobby.players, pid ∈ witnessPool.map PlayerInfo.id) ∧
    ([] : List PlayerInfo).length + LOBBY_SIZE = witnessPool.length ∧
    (∀ p ∈ witnessPool, p ∈ ([] : List PlayerInfo) ↔ p.id ∉ witnessLobby.players) := by
  refine ⟨⟨by decide, by decide⟩, ?_⟩
  exact tryCreateLobbies_capacity witnessPool witnessLobby [] (by decide) (by decide)

end FPSShooter
